import Mathlib

/-
  Formal model of the seleneum_webscraping repository.

  The definitions below are shallow embeddings of the Python sources:
  - bestbuy_review_scraper.py : BestBuyReviewScraper (selector fallback in
    parse_reviews, review-record building, the Show More loop in
    load_all_reviews, the scrape_product_reviews pipeline);
  - scraping_utilities.py : ScrapingUtilities (get_next_proxy,
    implement_retry_mechanism, is_blocked, the captcha indicator check of the
    retry wrapper).

  DOM-dependent inputs (the set of elements a selector matches, the text nodes
  of a fragment, what happens on each iteration of the Show More loop) are
  passed in explicitly; every function on those inputs mirrors the Python line
  by line.  Machine floats of the source are modelled as rationals.
-/

namespace Scraper

/-! ## String helpers modelling Python primitives -/

/-- Tests whether the second list occurs at the head of the first list. -/
def leadsWith : List Char → List Char → Bool
  | _, [] => true
  | [], _ :: _ => false
  | h :: hs, n :: ns => h = n && leadsWith hs ns

/-- Tests whether needle occurs anywhere inside hay. -/
def containsSub (needle : List Char) : List Char → Bool
  | [] => leadsWith [] needle
  | c :: t => leadsWith (c :: t) needle || containsSub needle t

/-- Python substring test: needle in hay. -/
def strContains (hay needle : String) : Bool :=
  containsSub needle.toList hay.toList

/-- Removes the first occurrence of needle (assumed non-empty) from the list. -/
def removeFirstSub (needle : List Char) : List Char → List Char
  | [] => []
  | c :: t =>
    if leadsWith (c :: t) needle then t.drop (needle.length - 1)
    else c :: removeFirstSub needle t

/-- Python str.replace with count 1: replaces the first occurrence of pat by
the empty string.  An empty pattern leaves the string unchanged, matching
replacing an empty pattern by an empty replacement in Python. -/
def replaceFirst (s pat : String) : String :=
  if pat = "" then s else String.mk (removeFirstSub pat.toList s.toList)

/-- ASCII whitespace test, modelling the whitespace class of Python. -/
def isWs (c : Char) : Bool := c.isWhitespace

/-- Python str.strip: removes whitespace from both ends. -/
def trimChars (cs : List Char) : List Char :=
  ((cs.dropWhile isWs).reverse.dropWhile isWs).reverse

/-- Python str.strip on strings. -/
def pyStrip (s : String) : String := String.mk (trimChars s.toList)

/-- Numeric value of a list of decimal digit characters. -/
def digitsVal (cs : List Char) : Nat :=
  cs.foldl (fun a c => a * 10 + (c.toNat - 48)) 0

/-- Python str.lower, applied characterwise. -/
def lowerStr (s : String) : String :=
  String.mk (s.toList.map Char.toLower)

/-! ## Selector fallback resolver

bestbuy_review_scraper.py, parse_reviews lines 346-361: iterate the selector
list in priority order, query the document with each selector, and keep the
first non-empty match list; if the loop finds nothing the match list stays
empty.  A strategy is modelled as a query function from the (abstract)
document to its list of matches. -/

/-- The first-non-empty-wins loop of parse_reviews (lines 355-361): try each
strategy in order and return the matches of the first one with a non-empty
result; return the empty list when every strategy returns nothing. -/
def resolve {α β : Type} (doc : α) : List (α → List β) → List β
  | [] => []
  | s :: rest => if (s doc).isEmpty then resolve doc rest else s doc

/-! ## Retry mechanism

scraping_utilities.py, implement_retry_mechanism lines 217-267.  The wrapper
keeps a retry counter starting at 0 and a wait time starting at initial_wait;
on each raised error it increments the counter, re-raises once the counter
exceeds max_retries, and otherwise sleeps wait_time and multiplies it by
backoff_factor before re-attempting.  The operation is modelled as a function
from the attempt index (0-based) to an Except value; the model returns the
number of executions performed, the list of backoff delays slept (in order),
and the final outcome.  The captcha re-check branch of the wrapper (lines
242-252) applies only when the call succeeds and returns a page object, so it
is never taken for an operation that raises, which is the situation the
claims quantify over. -/

def runRetryAux {E A : Type} (ops : Nat → Except E A) (factor : ℚ) :
    ℚ → Nat → Nat → Nat × List ℚ × Except E A
  | wait, k, retriesLeft =>
    match ops k with
    | Except.ok a => (k + 1, [], Except.ok a)
    | Except.error e =>
      match retriesLeft with
      | 0 => (k + 1, [], Except.error e)
      | n + 1 =>
        let r := runRetryAux ops factor (wait * factor) (k + 1) n
        (r.1, wait :: r.2.1, r.2.2)

/-- The retry wrapper of implement_retry_mechanism: at most max_retries
retries after the initial attempt, sleeping wait_time between attempts and
multiplying wait_time by backoff_factor after each sleep. -/
def implement_retry_mechanism {E A : Type} (ops : Nat → Except E A)
    (max_retries : Nat) (initial_wait backoff_factor : ℚ) :
    Nat × List ℚ × Except E A :=
  runRetryAux ops backoff_factor initial_wait 0 max_retries

/-- The geometric wait-time sequence produced by the state-passing loop:
sleep the current wait, then multiply it by the factor. -/
def geomList (f : ℚ) : ℚ → Nat → List ℚ
  | _, 0 => []
  | w, n + 1 => w :: geomList f (w * f) n

/-! ## Proxy rotation

scraping_utilities.py lines 15-123.  The class state holding the proxy list
and the rotation index; get_next_proxy (lines 116-123) returns None when the
list is empty and otherwise the entry at the current index, advancing the
index modulo the length.  The Python indexing raises IndexError for an
out-of-range index; that case is modelled with an Option lookup and the
theorems assume the maintained invariant that the index is in range. -/

structure ProxyPool where
  proxies : List String
  current_proxy_index : Nat
deriving DecidableEq

/-- get_next_proxy: None on an empty pool; otherwise the entry at the cursor,
with the cursor advanced by one modulo the pool size. -/
def get_next_proxy (s : ProxyPool) : Option String × ProxyPool :=
  if s.proxies = [] then (none, s)
  else (s.proxies.get? s.current_proxy_index,
        ⟨s.proxies, (s.current_proxy_index + 1) % s.proxies.length⟩)

/-- Modelled from the spec: section 4.1 gives the Identity Pool a
per-endpoint health flag and a mark_unhealthy operation, and requires
next_proxy to advance over healthy endpoints only; neither the flag nor
mark_unhealthy exists anywhere in the code.  This definition follows the
words of the spec and is used only to compare the code against it. -/
structure SpecProxyPool where
  endpoints : List (String × Bool)
  cursor : Nat

/-- Modelled from the spec: return the first healthy endpoint at or after the
cursor, wrapping around; none when the pool is empty or all unhealthy. -/
def next_proxy_spec (s : SpecProxyPool) : Option String :=
  (List.range s.endpoints.length).findSome? (fun k =>
    match s.endpoints.get? ((s.cursor + k) % s.endpoints.length) with
    | some (e, true) => some e
    | _ => none)

/-! ## Page-state classification

The repository has exactly two page-state detectors.  The retry wrapper
(scraping_utilities.py lines 242-244) checks the lowercased page text for the
captcha indicators recaptcha, hcaptcha, captcha before doing anything else
with a successfully fetched page, and dispatches such pages to captcha
handling (handle_captcha, lines 145-215).  The standalone block check
is_blocked (lines 309-351) reports a block when the lowercased page text
contains any of a fixed list of block phrases; note that the word captcha is
itself among those phrases.  The classifier below composes the two detectors
in the order the wrapper establishes: the captcha check first, the block
check only on pages without a captcha indicator. -/

inductive PageState where
  | Clean : PageState
  | Blocked : PageState
  | CaptchaChallenged : PageState
deriving DecidableEq

/-- The captcha indicator substrings of the retry wrapper (line 243). -/
def captchaIndicators : List String := ["recaptcha", "hcaptcha", "captcha"]

/-- The captcha text check of the retry wrapper (lines 243-244): some
indicator occurs in the lowercased page text. -/
def hasCaptchaIndicator (pageText : String) : Bool :=
  captchaIndicators.any (fun i => strContains (lowerStr pageText) i)

/-- The default block indicator phrases of is_blocked (lines 320-330). -/
def blockIndicators : List String :=
  ["captcha", "security check", "access denied", "blocked", "rate limit",
   "too many requests", "unusual activity", "suspicious activity",
   "detected unusual traffic"]

/-- is_blocked with the default indicator list (lines 332-341): some block
phrase occurs in the lowercased page text.  The optional HTTP status probe of
lines 343-349 is wrapped in a bare try/except and depends on the driver, not
on the page text; it is not part of the text classification modelled here. -/
def is_blocked (pageText : String) : Bool :=
  blockIndicators.any (fun i => strContains (lowerStr pageText) i)

/-- Page-state classification assembled from the two detectors of the code in
the order the retry wrapper consults them: captcha indicators are checked
first, so a page with a captcha indicator is dispatched to captcha handling
and never reaches a block check. -/
def classify (pageText : String) : PageState :=
  if hasCaptchaIndicator pageText then PageState.CaptchaChallenged
  else if is_blocked pageText then PageState.Blocked
  else PageState.Clean

/-! ## Document fragments

A matched review fragment is modelled by the flattened list of its descendant
elements (in document order, each with tag name, class list and stripped
text) together with the list of its text nodes: find_all over tags and
classes searches the elements, find_all with a text filter searches the text
nodes, and get_text concatenates the text nodes. -/

structure DomElement where
  tag : String
  classes : List String
  text : String
deriving DecidableEq

structure RawFragment where
  elements : List DomElement
  texts : List String
deriving DecidableEq

/-- BeautifulSoup get_text with strip=True on a fragment: each text node is
stripped and the results are concatenated. -/
def fragFullText (frag : RawFragment) : String :=
  String.mk (frag.texts.foldl (fun acc t => acc ++ trimChars t.toList) [])

/-! ## Field extraction heuristics (parse_reviews lines 373-458) -/

/-- Tag priority list for the title (line 380). -/
def titleTags : List String := ["h3", "h4", "h5", "strong", "span", "div"]

/-- Title lookup (lines 379-386): the first tag in the priority list with any
matching element wins, and the first such element supplies the title text;
none when no tag matches. -/
def extractTitle (frag : RawFragment) : Option String :=
  titleTags.findSome? (fun t =>
    ((frag.elements.filter (fun e => e.tag = t)).head?).map (fun e => e.text))

/-- The title string, with the sentinel for fragments without a title element
(line 386). -/
def titleOf (frag : RawFragment) : String :=
  (extractTitle frag).getD "No Title"

/-- Body text candidates and selection (lines 389-395): among p, div and span
elements, those that are a p or carry the class content compete, and a
candidate replaces the current text only when strictly longer. -/
def extractBodyPrimary (frag : RawFragment) : String :=
  (frag.elements.filter (fun e => ["p", "div", "span"].contains e.tag)).foldl
    (fun acc e =>
      if (e.tag = "p" || e.classes.contains "content")
          && acc.length < e.text.length then e.text else acc) ""

/-- Body text with the fallback of lines 397-401: when no candidate matched,
take the full fragment text and, when the title occurs in it, remove the
first occurrence of the title and strip the result. -/
def bodyOfWith (frag : RawFragment) (title : String) : String :=
  let primary := extractBodyPrimary frag
  if primary ≠ "" then primary
  else
    let full := fragFullText frag
    if strContains full title then pyStrip (replaceFirst full title) else full

/-- The extracted review body text of a fragment. -/
def bodyOf (frag : RawFragment) : String := bodyOfWith frag (titleOf frag)

/-- Date element lookup (lines 404-410): first time, span or div element with
a class containing date, time or when; empty string when there is none. -/
def extractDateStr (frag : RawFragment) : String :=
  match (frag.elements.filter (fun e =>
      ["time", "span", "div"].contains e.tag
        && e.classes.any (fun c =>
            ["date", "time", "when"].any (fun k => strContains c k)))).head? with
  | some e => e.text
  | none => ""

/-! ## Date normalization (parse_reviews lines 410-425)

The month-name parse models Python strptime with format percent-B space
percent-d comma space percent-Y under re.IGNORECASE: a full month name, one
or more whitespace characters, a one- or two-digit day in 1..31, a literal
comma, one or more whitespace characters, exactly four digits of year, end of
string; the datetime constructor then validates the day against the month
length and rejects year 0. -/

/-- Lowercase full month names, position 0 holding month 1. -/
def monthNames : List String :=
  ["january", "february", "march", "april", "may", "june", "july",
   "august", "september", "october", "november", "december"]

/-- Matches a full month name at the head of the (lowercased) character list,
returning the month number and the rest. -/
def monthFromChars (cs : List Char) : Option (Nat × List Char) :=
  (List.range 12).findSome? (fun i =>
    let name := (monthNames.getD i "").toList
    if leadsWith cs name then some (i + 1, cs.drop name.length) else none)

/-- Gregorian leap-year rule used by the datetime validation. -/
def isLeap (y : Nat) : Bool := (y % 4 = 0 && y % 100 ≠ 0) || y % 400 = 0

/-- Number of days of a month, as validated by the datetime constructor. -/
def daysInMonth (y m : Nat) : Nat :=
  if m = 2 then (if isLeap y then 29 else 28)
  else if [4, 6, 9, 11].contains m then 30 else 31

/-- strptime with the long date format: month name, whitespace, day, comma,
whitespace, four-digit year, nothing else; none when the string does not
match or the date is invalid. -/
def parseLongDate (s : String) : Option (Nat × Nat × Nat) :=
  match monthFromChars (lowerStr s).toList with
  | none => none
  | some (m, r1) =>
    let r2 := r1.dropWhile isWs
    if r1.takeWhile isWs = [] then none
    else
      let ds := r2.takeWhile Char.isDigit
      let r3 := r2.dropWhile Char.isDigit
      if ds = [] || 2 < ds.length then none
      else
        let d := digitsVal ds
        if d = 0 || 31 < d then none
        else
          match r3 with
          | ',' :: r4 =>
            let r5 := r4.dropWhile isWs
            if r4.takeWhile isWs = [] then none
            else
              let ys := r5.takeWhile Char.isDigit
              if ys.length = 4 ∧ r5.dropWhile Char.isDigit = [] then
                let y := digitsVal ys
                if y = 0 then none
                else if d ≤ daysInMonth y m then some (y, m, d) else none
              else none
          | _ => none

/-- Two-digit zero padding of strftime percent-m and percent-d. -/
def pad2 (n : Nat) : String := if n < 10 then "0" ++ toString n else toString n

/-- strftime with format percent-Y dash percent-m dash percent-d. -/
def formatIso (y m d : Nat) : String :=
  toString y ++ "-" ++ pad2 m ++ "-" ++ pad2 d

/-- Date normalization of lines 410-425: the empty date string leaves the
initial value Unknown; a string containing a comma goes through the long
parse and is formatted as an ISO date on success and kept raw when the parse
raises; every other non-empty string (the dash branch and the final else
branch of the code alike) is kept unchanged. -/
def normalizeDate (date_str : String) : String :=
  if date_str = "" then "Unknown"
  else if strContains date_str "," then
    match parseLongDate date_str with
    | some (y, m, d) => formatIso y m d
    | none => date_str
  else date_str

/-- The date field of a fragment. -/
def dateField (frag : RawFragment) : String :=
  normalizeDate (extractDateStr frag)

/-! ## Rating extraction (parse_reviews lines 427-449) -/

/-- Class substrings that make an element count as a star (line 431). -/
def starClassKeys : List String := ["star", "rating", "filled"]

/-- Star counting (lines 430-434): the number of span, i or div elements with
a class containing star, rating or filled. -/
def countStarElements (frag : RawFragment) : Nat :=
  (frag.elements.filter (fun e =>
    ["span", "i", "div"].contains e.tag
      && e.classes.any (fun c =>
          starClassKeys.any (fun k => strContains c k)))).length

/-- Text-node triggers for the numeric fallback (line 438). -/
def ratingTriggers : List String := ["/5", "out of 5", "stars"]

/-- The regex of line 444 applied by re.findall, first match only: the first
digit run, extended to a decimal when immediately followed by a dot and more
digits. -/
def firstNumber (s : String) : Option ℚ :=
  firstNumberAux s.toList
where
  firstNumberAux : List Char → Option ℚ
    | [] => none
    | c :: rest =>
      if c.isDigit then
        let ds := (c :: rest).takeWhile Char.isDigit
        let r2 := (c :: rest).dropWhile Char.isDigit
        match r2 with
        | '.' :: r3 =>
          let fs := r3.takeWhile Char.isDigit
          if fs = [] then some (digitsVal ds)
          else some ((digitsVal ds : ℚ) + (digitsVal fs : ℚ) / (10 : ℚ) ^ fs.length)
        | _ => some (digitsVal ds)
      else firstNumberAux rest

/-- Numeric fallback (lines 437-449): scan the text nodes in order, keep only
those containing one of the trigger substrings, and return the first number
found in the first such node that contains one; none otherwise. -/
def ratingFallback : List String → Option ℚ
  | [] => none
  | t :: rest =>
    if ratingTriggers.any (fun p => strContains t p) then
      match firstNumber t with
      | some q => some q
      | none => ratingFallback rest
    else ratingFallback rest

/-- Rating extraction: the star count when non-zero, otherwise the numeric
fallback, otherwise 0. -/
def extractRating (frag : RawFragment) : ℚ :=
  let stars := countStarElements frag
  if stars = 0 then (ratingFallback frag.texts).getD 0 else (stars : ℚ)

/-- Reviewer name lookup (lines 452-458): first span, div or a element with a
class containing author, reviewer, name or user; Anonymous when none. -/
def extractAuthor (frag : RawFragment) : String :=
  match (frag.elements.filter (fun e =>
      ["span", "div", "a"].contains e.tag
        && e.classes.any (fun c =>
            ["author", "reviewer", "name", "user"].any
              (fun k => strContains c k)))).head? with
  | some e => e.text
  | none => "Anonymous"

/-! ## Review record building and the parse loop -/

structure ReviewRecord where
  title : String
  review_text : String
  date : String
  rating : ℚ
  source : String
  reviewer_name : String
deriving DecidableEq

/-- The per-fragment record builder of parse_reviews: a record is produced
exactly under the condition of line 461, non-empty body text or a title
different from the sentinel; otherwise the fragment is discarded. -/
def buildReview (frag : RawFragment) : Option ReviewRecord :=
  if bodyOf frag ≠ "" ∨ titleOf frag ≠ "No Title" then
    some ⟨titleOf frag, bodyOf frag, dateField frag, extractRating frag,
          "BestBuy Canada", extractAuthor frag⟩
  else none

/-- The parse loop of lines 373-474 over the matched fragments, starting from
the records already collected on the session: a fragment whose processing
raises is skipped by the per-fragment except/continue, a discarded fragment
adds nothing, and an accepted fragment appends its record.  A raising
fragment is modelled as an error value. -/
def parse_reviews (acc : List ReviewRecord) :
    List (Except Unit RawFragment) → List ReviewRecord
  | [] => acc
  | Except.error _ :: rest => parse_reviews acc rest
  | Except.ok frag :: rest =>
    match buildReview frag with
    | some r => parse_reviews (acc ++ [r]) rest
    | none => parse_reviews acc rest

/-- The pipeline of scrape_product_reviews lines 501-520: parsing fills the
session collection; when a later step of the try block raises, the except
branch returns None but the session collection keeps its records. -/
def scrape_product_reviews (acc : List ReviewRecord)
    (frags : List (Except Unit RawFragment)) (laterError : Bool) :
    Option (List ReviewRecord) × List ReviewRecord :=
  let revs := parse_reviews acc frags
  if laterError then (none, revs) else (some revs, revs)

/-! ## The Show More loop (load_all_reviews lines 223-332)

Each iteration of the while loop observes the page: the current review count
(taken as 0 when no working selector was found), whether some Show More
button could be clicked, and the review count after the click.  An iteration
in which some statement raises is modelled as an error observation and makes
the outer try/except break out of the loop.  The loop counter attempts is
incremented at the top of every iteration and the loop runs while it is
below the literal max_attempts = 5 (line 272). -/

structure StepObs where
  current_count : Nat
  clicked : Bool
  new_count : Nat
deriving DecidableEq

inductive StopReason where
  | maxAttempts : StopReason
  | maxReached : StopReason
  | noButton : StopReason
  | noIncrease : StopReason
  | errored : StopReason
deriving DecidableEq

/-- The max_reviews test of line 288: Python truthiness makes the test a
no-op when max_reviews is None or 0. -/
def hitMaxReviews (mr : Option Nat) (current : Nat) : Bool :=
  match mr with
  | some m => m != 0 && decide (m ≤ current)
  | none => false

/-- The review count an iteration works with (lines 279-281). -/
def currentOf (ws : Bool) (o : StepObs) : Nat :=
  if ws then o.current_count else 0

/-- Whether an iteration with the given observation stops the loop: a raised
exception, the max_reviews cap, no clickable button, or (with a working
selector) no strictly larger review count after the click. -/
def stepStops (mr : Option Nat) (ws : Bool) : Except Unit StepObs → Bool
  | Except.error _ => true
  | Except.ok o =>
    hitMaxReviews mr (currentOf ws o) || !o.clicked
      || (ws && decide (o.new_count ≤ currentOf ws o))

/-- The while loop of lines 275-328, with the environment giving the
observation of each iteration (indexed by the value of attempts during that
iteration).  Returns the number of iterations executed and why the loop
stopped. -/
def loadAux (env : Nat → Except Unit StepObs) (mr : Option Nat) (ws : Bool) :
    Nat → Nat → Nat × StopReason
  | a, 0 => (a, StopReason.maxAttempts)
  | a, fuel + 1 =>
    match env (a + 1) with
    | Except.error _ => (a + 1, StopReason.errored)
    | Except.ok o =>
      if hitMaxReviews mr (currentOf ws o) then (a + 1, StopReason.maxReached)
      else if !o.clicked then (a + 1, StopReason.noButton)
      else if ws && decide (o.new_count ≤ currentOf ws o) then
        (a + 1, StopReason.noIncrease)
      else loadAux env mr ws (a + 1) fuel

/-- load_all_reviews: the Show More loop started with attempts = 0 and the
hard cap max_attempts = 5. -/
def load_all_reviews (env : Nat → Except Unit StepObs) (mr : Option Nat)
    (ws : Bool) : Nat × StopReason :=
  loadAux env mr ws 0 5

/-- A concrete Show More environment: the first iteration clicks a button and
the count grows, the second iteration finds no clickable button. -/
def showMoreEnvW : Nat → Except Unit StepObs :=
  fun j => if j = 2 then Except.ok ⟨9, false, 9⟩ else Except.ok ⟨0, true, 1⟩

/-! ## Theorems -/

/-- Helper: the resolver returns the empty list when every strategy queries
to an empty match list. -/
lemma resolve_all_empty {α β : Type} (doc : α) :
    ∀ ss : List (α → List β), (∀ q ∈ ss, q doc = []) → resolve doc ss = [] := by
  intro ss
  induction ss with
  | nil => intro _; rfl
  | cons q rest ih =>
    intro h
    have hq : q doc = [] := h q (List.mem_cons_self _ _)
    have h2 := ih (fun p hp => h p (List.mem_cons_of_mem _ hp))
    simp [resolve, hq, h2]

/-- Helper: a block of strategies with empty matches at the front of the list
does not change the result of the resolver. -/
lemma resolve_skip_empty {α β : Type} (doc : α) (rest : List (α → List β)) :
    ∀ pre : List (α → List β), (∀ q ∈ pre, q doc = []) →
      resolve doc (pre ++ rest) = resolve doc rest := by
  intro pre
  induction pre with
  | nil => intro _; rfl
  | cons q pre ih =>
    intro h
    have hq : q doc = [] := h q (List.mem_cons_self _ _)
    have h2 := ih (fun p hp => h p (List.mem_cons_of_mem _ hp))
    rw [List.cons_append]
    simp [resolve, hq, h2]

/-- C1: for every prioritized strategy list and every document, if strategy s
is the first whose query returns a non-empty match list (every strategy
before it matching nothing), the resolver returns exactly the matches of s;
the result does not mention the strategies after s, which are therefore
never consulted, and when every strategy matches nothing the result is the
empty list, not an error. -/
theorem resolver_short_circuit {α β : Type} (doc : α)
    (pre tail : List (α → List β)) (s : α → List β)
    (hpre : ∀ q ∈ pre, q doc = []) (hs : s doc ≠ []) :
    resolve doc (pre ++ s :: tail) = s doc ∧
    ∀ ss : List (α → List β), (∀ q ∈ ss, q doc = []) → resolve doc ss = [] := by
  refine ⟨?_, resolve_all_empty doc⟩
  rw [resolve_skip_empty doc (s :: tail) pre hpre]
  cases h : s doc with
  | nil => exact absurd h hs
  | cons a l => simp [resolve, h]

/-- Witness for C1, at the scenario of the spec: the first strategy matches
nothing, the second matches three fragments, the third five; the resolver
returns the three matches of the second strategy. -/
theorem resolver_short_circuit_witness :
    resolve () [fun _ => ([] : List Nat), fun _ => [1, 2, 3],
                fun _ => [4, 5, 6, 7, 8]] = [1, 2, 3] := by
  have h := resolver_short_circuit () [fun _ => ([] : List Nat)]
    [fun _ => [4, 5, 6, 7, 8]] (fun _ => [1, 2, 3])
    (fun q hq => by
      have hq2 := List.mem_singleton.mp hq
      rw [hq2])
    (by decide)
  exact h.1

/-- Helper: on an operation that raises on every invocation, the retry loop
performs every allowed attempt, sleeps the geometric wait sequence, and ends
with the error of the last attempt. -/
lemma runRetryAux_fail {E A : Type} (errs : Nat → E) (f : ℚ) :
    ∀ (n : Nat) (w : ℚ) (k : Nat),
      runRetryAux (fun j => (Except.error (errs j) : Except E A)) f w k n =
        (k + n + 1, geomList f w n, Except.error (errs (k + n))) := by
  intro n
  induction n with
  | zero => intro w k; rfl
  | succ n ih =>
    intro w k
    have step : runRetryAux (fun j => (Except.error (errs j) : Except E A))
        f w k (n + 1) =
        ((runRetryAux (fun j => (Except.error (errs j) : Except E A))
            f (w * f) (k + 1) n).1,
         w :: (runRetryAux (fun j => (Except.error (errs j) : Except E A))
            f (w * f) (k + 1) n).2.1,
         (runRetryAux (fun j => (Except.error (errs j) : Except E A))
            f (w * f) (k + 1) n).2.2) := rfl
    rw [step, ih (w * f) (k + 1)]
    have hk : k + 1 + n = k + (n + 1) := by omega
    rw [hk]
    rfl

/-- C2 (amended): with the retry budget parameter max_retries = N, an
operation that raises a retryable error on every invocation is executed
exactly N + 1 times (the initial attempt plus N retries), and the error of
the final attempt is raised to the caller, not swallowed.  The claim as
stated, N executions for budget parameter N, fails on the code: the code
counts retries after the initial attempt, so the spec name max_attempts can
only match the code under max_attempts = max_retries + 1. -/
theorem retry_exhausts_budget {E A : Type} (errs : Nat → E) (N : Nat)
    (w f : ℚ) :
    (implement_retry_mechanism (fun k => (Except.error (errs k) : Except E A))
        N w f).1 = N + 1 ∧
    (implement_retry_mechanism (fun k => (Except.error (errs k) : Except E A))
        N w f).2.2 = Except.error (errs N) := by
  have h := @runRetryAux_fail E A errs f N w 0
  unfold implement_retry_mechanism
  rw [h]
  constructor <;> simp

/-- Counterexample to C2 as stated: with budget parameter 1 the always-
failing operation is executed 2 times, not 1 time. -/
theorem retry_budget_counterexample :
    (implement_retry_mechanism (fun _ => (Except.error 0 : Except Nat Unit))
        1 1 2).1 = 2 ∧ (2 : Nat) ≠ 1 := by
  constructor
  · rfl
  · decide

/-- Helper: the element at position i of the geometric wait sequence. -/
lemma geomList_getD (f : ℚ) :
    ∀ (n i : Nat) (w : ℚ), i < n → (geomList f w n).getD i 0 = w * f ^ i := by
  intro n
  induction n with
  | zero => intro i w h; exact absurd h (Nat.not_lt_zero i)
  | succ n ih =>
    intro i w h
    cases i with
    | zero => simp [geomList]
    | succ i =>
      have hi : i < n := by omega
      have hcons : geomList f w (n + 1) = w :: geomList f (w * f) n := rfl
      rw [hcons, List.getD_cons_succ, ih i (w * f) hi]
      ring

/-- C4: for an operation that raises on every invocation, the backoff delay
slept before the i-th retry (position i - 1 of the delay list, stated below
with 0-based index i) equals initial_wait times backoff_factor to the power
i, and the delay sequence is monotonically non-decreasing whenever the
factor is at least 1 (and the initial wait, a duration, is non-negative).
The captcha-recovery branch of the wrapper is not taken for a raising
operation; in that branch the code multiplies the wait before sleeping. -/
theorem backoff_delays {E A : Type} (errs : Nat → E) (N : Nat) (w f : ℚ) :
    (∀ i, i < N →
      ((implement_retry_mechanism
          (fun k => (Except.error (errs k) : Except E A)) N w f).2.1).getD i 0
        = w * f ^ i) ∧
    (1 ≤ f → 0 ≤ w → ∀ i j, i ≤ j → j < N →
      ((implement_retry_mechanism
          (fun k => (Except.error (errs k) : Except E A)) N w f).2.1).getD i 0
        ≤ ((implement_retry_mechanism
          (fun k => (Except.error (errs k) : Except E A)) N w f).2.1).getD j 0) := by
  have h := @runRetryAux_fail E A errs f N w 0
  have hd : (implement_retry_mechanism
      (fun k => (Except.error (errs k) : Except E A)) N w f).2.1
      = geomList f w N := by
    unfold implement_retry_mechanism
    rw [h]
  constructor
  · intro i hi
    rw [hd]
    exact geomList_getD f N i w hi
  · intro hf hw i j hij hj
    rw [hd, geomList_getD f N i w (lt_of_le_of_lt hij hj),
        geomList_getD f N j w hj]
    exact mul_le_mul_of_nonneg_left (pow_le_pow_right₀ hf hij) hw

/-- Witness for C4 with initial wait 1, factor 2 and three retries: the
delay before the second retry is 1 * 2 = 2, and the first delay is at most
the third. -/
theorem backoff_delays_witness :
    ((implement_retry_mechanism (fun _ => (Except.error 0 : Except Nat Unit))
        3 1 2).2.1).getD 1 0 = 2 ∧
    ((implement_retry_mechanism (fun _ => (Except.error 0 : Except Nat Unit))
        3 1 2).2.1).getD 0 0 ≤
      ((implement_retry_mechanism (fun _ => (Except.error 0 : Except Nat Unit))
        3 1 2).2.1).getD 2 0 := by
  have h := @backoff_delays Nat Unit (fun _ => 0) 3 1 2
  constructor
  · have h1 := h.1 1 (by norm_num)
    rw [h1]
    norm_num
  · exact h.2 (by norm_num) (by norm_num) 0 2 (by norm_num) (by norm_num)

/-- C3: a page whose rendered text contains both a captcha indicator and a
block phrase classifies as CaptchaChallenged and never as Blocked: the
engine checks the captcha indicators before any block check, so captcha
detection takes precedence over block-phrase detection.  The precedence
matters because is_blocked alone also fires on captcha pages, the word
captcha being among its own block phrases. -/
theorem captcha_precedes_blocked (t : String)
    (hc : hasCaptchaIndicator t = true) (hb : is_blocked t = true) :
    classify t = PageState.CaptchaChallenged ∧
    classify t ≠ PageState.Blocked := by
  constructor
  · simp [classify, hc]
  · simp [classify, hc]

/-- Witness for C3: a page text carrying a reCAPTCHA marker and the block
phrase access denied classifies as CaptchaChallenged. -/
theorem captcha_precedes_blocked_witness :
    classify "recaptcha access denied" = PageState.CaptchaChallenged :=
  (captcha_precedes_blocked "recaptcha access denied"
    (by decide) (by decide)).1

/-- C5 (amended): get_next_proxy returns none exactly when the stored proxy
list is empty; otherwise it returns the endpoint at the rotation cursor and
advances the cursor by one with wrap-around, keeping the cursor in range.
The code keeps no per-endpoint health flag, so the health-skipping part of
the claim fails (see the counterexample). -/
theorem get_next_proxy_round_robin (s : ProxyPool)
    (h : s.current_proxy_index < s.proxies.length) :
    (get_next_proxy s).1 = some (s.proxies.get ⟨s.current_proxy_index, h⟩) ∧
    (get_next_proxy s).2.proxies = s.proxies ∧
    (get_next_proxy s).2.current_proxy_index
      = (s.current_proxy_index + 1) % s.proxies.length ∧
    (get_next_proxy s).2.current_proxy_index < s.proxies.length ∧
    (∀ t : ProxyPool, t.proxies = [] →
      (get_next_proxy t).1 = none ∧ (get_next_proxy t).2 = t) := by
  have hne : s.proxies ≠ [] := by
    intro he
    rw [he] at h
    exact absurd h (by simp)
  unfold get_next_proxy
  rw [if_neg hne]
  refine ⟨List.get?_eq_get h, rfl, rfl, ?_, ?_⟩
  · have hpos : 0 < s.proxies.length := List.length_pos.mpr hne
    exact Nat.mod_lt _ hpos
  · intro t ht
    rw [if_pos ht]
    exact ⟨rfl, rfl⟩

/-- Witness for C5: on the pool with entries a and b and cursor 1, the next
proxy is b and the cursor wraps to 0. -/
theorem get_next_proxy_round_robin_witness :
    (get_next_proxy ⟨["a", "b"], 1⟩).1 = some "b" ∧
    (get_next_proxy ⟨["a", "b"], 1⟩).2.current_proxy_index = 0 := by
  have h := get_next_proxy_round_robin ⟨["a", "b"], 1⟩ (by decide)
  refine ⟨?_, ?_⟩
  · rw [h.1]
    rfl
  · rw [h.2.2.1]
    decide

/-- Counterexample to C5 as stated: the code has no health flags, so the
cursor visits every stored endpoint.  With endpoint b regarded as unhealthy
(as the spec models health) and the cursor at 1, get_next_proxy still
returns b, while the health-aware resolver of the spec would skip to a. -/
theorem get_next_proxy_ignores_health :
    (get_next_proxy ⟨["a", "b"], 1⟩).1 = some "b" ∧
    next_proxy_spec ⟨[("a", true), ("b", false)], 1⟩ = some "a" ∧
    ("b" : String) ≠ "a" := by decide

/-- Counterexample to C6 as stated: the numeric fallback of the code also
fires on text containing the substring stars.  A fragment with no star-class
elements whose only text node is 4 stars gets rating 4, while the claim,
whose fallback looks only for /5 and out of 5, predicts the default 0. -/
theorem rating_stars_text_counterexample :
    extractRating ⟨[], ["4 stars"]⟩ = 4 ∧
    countStarElements ⟨[], ["4 stars"]⟩ = 0 ∧
    strContains "4 stars" "/5" = false ∧
    strContains "4 stars" "out of 5" = false ∧
    (4 : ℚ) ≠ 0 := by decide

/-- Helper: with no trigger substring in any text node, the numeric fallback
yields nothing. -/
lemma ratingFallback_none :
    ∀ ts : List String,
      (∀ t ∈ ts, ratingTriggers.any (fun p => strContains t p) = false) →
      ratingFallback ts = none := by
  intro ts
  induction ts with
  | nil => intro _; rfl
  | cons t rest ih =>
    intro h
    have ht := h t (List.mem_cons_self _ _)
    have h2 := ih (fun u hu => h u (List.mem_cons_of_mem _ hu))
    simp [ratingFallback, ht, h2]

/-- C6 (amended): rating extraction first counts star-class elements as an
integer star count; when that count is zero it falls back to the first
number found in a text node containing /5, out of 5 or stars (the third
trigger being the one the claim omits); when the star count is zero and no
text node contains any trigger the rating defaults to 0; and the text
4.2 out of 5 yields rating 4.2. -/
theorem rating_extraction (frag : RawFragment) :
    (countStarElements frag ≠ 0 →
      extractRating frag = (countStarElements frag : ℚ)) ∧
    (countStarElements frag = 0 →
      extractRating frag = (ratingFallback frag.texts).getD 0) ∧
    (countStarElements frag = 0 →
      (∀ t ∈ frag.texts, ratingTriggers.any (fun p => strContains t p) = false) →
      extractRating frag = 0) ∧
    extractRating ⟨[], ["4.2 out of 5"]⟩ = 21 / 5 := by
  refine ⟨?_, ?_, ?_, ?_⟩
  · intro h
    simp [extractRating, h]
  · intro h
    simp [extractRating, h]
  · intro h ht
    have hnone := ratingFallback_none frag.texts ht
    simp [extractRating, h, hnone]
  · have hr : extractRating ⟨[], ["4.2 out of 5"]⟩
        = ((4 : Nat) : ℚ) + ((2 : Nat) : ℚ) / (10 : ℚ) ^ (1 : Nat) := rfl
    rw [hr]
    norm_num

/-- Witness for C6: two star-class elements give the integer rating 2. -/
theorem rating_extraction_witness :
    extractRating ⟨[⟨"span", ["star-filled"], ""⟩, ⟨"i", ["star"], ""⟩], []⟩
      = 2 := by
  have h := (rating_extraction
    ⟨[⟨"span", ["star-filled"], ""⟩, ⟨"i", ["star"], ""⟩], []⟩).1 (by decide)
  rw [h, show countStarElements
    ⟨[⟨"span", ["star-filled"], ""⟩, ⟨"i", ["star"], ""⟩], []⟩ = 2 from rfl]
  norm_num

/-- C7: the record builder maps the long-form date March 31, 2025 to
2025-03-31, passes the ISO-form 2025-04-01 through unchanged, keeps any
other non-empty date string as-is whenever the long-form parse fails, and
yields the sentinel Unknown when the fragment has no date element (the
extracted date string being empty). -/
theorem date_normalization :
    normalizeDate "March 31, 2025" = "2025-03-31" ∧
    normalizeDate "2025-04-01" = "2025-04-01" ∧
    (∀ s : String, s ≠ "" → parseLongDate s = none → normalizeDate s = s) ∧
    (∀ frag : RawFragment, extractDateStr frag = "" →
      dateField frag = "Unknown") := by
  refine ⟨by decide, by decide, ?_, ?_⟩
  · intro s hs hp
    unfold normalizeDate
    rw [if_neg hs]
    by_cases hc : strContains s "," = true
    · rw [if_pos hc, hp]
    · rw [if_neg hc]
  · intro frag h
    unfold dateField
    rw [h]
    rfl

/-- Witness for C7: a non-empty date string without a long-form parse is
kept unchanged. -/
theorem date_normalization_witness :
    normalizeDate "April 2025" = "April 2025" :=
  date_normalization.2.2.1 "April 2025" (by decide) (by decide)

/-- C8: a fragment becomes a record exactly when its extracted body text is
non-empty or its extracted title differs from the sentinel No Title; a
fragment with empty body and sentinel title is discarded. -/
theorem discard_rule (frag : RawFragment) :
    buildReview frag = none ↔
      (bodyOf frag = "" ∧ titleOf frag = "No Title") := by
  unfold buildReview
  by_cases h : bodyOf frag ≠ "" ∨ titleOf frag ≠ "No Title"
  · rw [if_pos h]
    constructor
    · intro hsome
      exact Option.noConfusion hsome
    · intro hand
      rcases h with h | h
      · exact absurd hand.1 h
      · exact absurd hand.2 h
  · rw [if_neg h]
    push_neg at h
    simp [h.1, h.2]

/-- Helper: the parse loop only appends to the collection it starts from. -/
lemma parse_reviews_extends (frags : List (Except Unit RawFragment)) :
    ∀ acc : List ReviewRecord,
      ∃ suffix, parse_reviews acc frags = acc ++ suffix := by
  induction frags with
  | nil => intro acc; exact ⟨[], by simp [parse_reviews]⟩
  | cons hd rest ih =>
    intro acc
    cases hd with
    | error e => exact ih acc
    | ok frag =>
      cases hb : buildReview frag with
      | none =>
        have he : parse_reviews acc (Except.ok frag :: rest)
            = parse_reviews acc rest := by
          simp [parse_reviews, hb]
        rw [he]
        exact ih acc
      | some r =>
        have he : parse_reviews acc (Except.ok frag :: rest)
            = parse_reviews (acc ++ [r]) rest := by
          simp [parse_reviews, hb]
        rw [he]
        obtain ⟨suf, hs⟩ := ih (acc ++ [r])
        exact ⟨[r] ++ suf, by rw [hs, List.append_assoc]⟩

/-- C9: however a harvesting run ends, every record already in the session
collection before the run is still there, unchanged and in place: fragments
whose processing raises are skipped, accepted fragments only append, and a
later pipeline failure (which makes the run return none) leaves the session
collection intact. -/
theorem failed_session_preserves_records (acc : List ReviewRecord)
    (frags : List (Except Unit RawFragment)) (laterError : Bool) :
    ∃ suffix, (scrape_product_reviews acc frags laterError).2 = acc ++ suffix := by
  obtain ⟨suf, hs⟩ := parse_reviews_extends frags acc
  cases laterError <;> exact ⟨suf, by simpa [scrape_product_reviews] using hs⟩

/-- Helper: full characterisation of the Show More loop: the iteration count
stays within the fuel, every iteration before the last one continued, the
fuel-exhaustion outcome uses all iterations, and any other outcome stops at
an iteration whose observation triggers a stop condition. -/
lemma loadAux_spec (env : Nat → Except Unit StepObs) (mr : Option Nat)
    (ws : Bool) :
    ∀ (fuel a : Nat),
      a ≤ (loadAux env mr ws a fuel).1 ∧
      (loadAux env mr ws a fuel).1 ≤ a + fuel ∧
      (∀ j, a < j → j < (loadAux env mr ws a fuel).1 →
        stepStops mr ws (env j) = false) ∧
      ((loadAux env mr ws a fuel).2 = StopReason.maxAttempts →
        (loadAux env mr ws a fuel).1 = a + fuel) ∧
      ((loadAux env mr ws a fuel).2 ≠ StopReason.maxAttempts →
        stepStops mr ws (env (loadAux env mr ws a fuel).1) = true) := by
  intro fuel
  induction fuel with
  | zero =>
    intro a
    have he : loadAux env mr ws a 0 = (a, StopReason.maxAttempts) := rfl
    rw [he]
    refine ⟨le_refl a, by omega, ?_, ?_, ?_⟩
    · intro j h1 h2
      omega
    · intro _
      omega
    · intro hne
      exact absurd rfl hne
  | succ fuel ih =>
    intro a
    cases henv : env (a + 1) with
    | error e =>
      have he : loadAux env mr ws a (fuel + 1) = (a + 1, StopReason.errored) := by
        simp [loadAux, henv]
      rw [he]
      refine ⟨by omega, by omega, ?_, ?_, ?_⟩
      · intro j h1 h2
        omega
      · intro h
        exact StopReason.noConfusion h
      · intro _
        rw [henv]
        rfl
    | ok o =>
      cases h1 : hitMaxReviews mr (currentOf ws o) with
      | true =>
        have he : loadAux env mr ws a (fuel + 1)
            = (a + 1, StopReason.maxReached) := by
          simp [loadAux, henv, h1]
        rw [he]
        refine ⟨by omega, by omega, ?_, ?_, ?_⟩
        · intro j hj1 hj2
          omega
        · intro h
          exact StopReason.noConfusion h
        · intro _
          simp [stepStops, henv, h1]
      | false =>
        cases h2 : o.clicked with
        | false =>
          have he : loadAux env mr ws a (fuel + 1)
              = (a + 1, StopReason.noButton) := by
            simp [loadAux, henv, h1, h2]
          rw [he]
          refine ⟨by omega, by omega, ?_, ?_, ?_⟩
          · intro j hj1 hj2
            omega
          · intro h
            exact StopReason.noConfusion h
          · intro _
            simp [stepStops, henv, h2]
        | true =>
          cases h3 : (ws && decide (o.new_count ≤ currentOf ws o)) with
          | true =>
            have he : loadAux env mr ws a (fuel + 1)
                = (a + 1, StopReason.noIncrease) := by
              simp [loadAux, henv, h1, h2, h3]
            rw [he]
            refine ⟨by omega, by omega, ?_, ?_, ?_⟩
            · intro j hj1 hj2
              omega
            · intro h
              exact StopReason.noConfusion h
            · intro _
              simp [stepStops, henv, h3]
          | false =>
            have he : loadAux env mr ws a (fuel + 1)
                = loadAux env mr ws (a + 1) fuel := by
              simp [loadAux, henv, h1, h2, h3]
            rw [he]
            obtain ⟨ih1, ih2, ih3, ih4, ih5⟩ := ih (a + 1)
            refine ⟨by omega, by omega, ?_, ?_, ih5⟩
            · intro j hj1 hj2
              by_cases hja : j = a + 1
              · subst hja
                simp [stepStops, henv, h1, h2, h3]
              · exact ih3 j (by omega) hj2
            · intro h
              have h4 := ih4 h
              omega

/-- C10: the Show More loop of load_all_reviews always terminates within the
hard cap max_attempts = 5 (a literal unstated in the spec): the iteration
count is at most 5, the loop uses all 5 iterations only when it stops by
fuel exhaustion, every iteration before the stopping one triggered no stop
condition, and an early stop happens exactly at an iteration that raised an
exception, reached max_reviews, found no clickable Show More button, or saw
no increase in the review count after a click. -/
theorem load_loop_bounded (env : Nat → Except Unit StepObs) (mr : Option Nat)
    (ws : Bool) :
    (load_all_reviews env mr ws).1 ≤ 5 ∧
    ((load_all_reviews env mr ws).2 = StopReason.maxAttempts →
      (load_all_reviews env mr ws).1 = 5) ∧
    (∀ j, 1 ≤ j → j < (load_all_reviews env mr ws).1 →
      stepStops mr ws (env j) = false) ∧
    ((load_all_reviews env mr ws).2 ≠ StopReason.maxAttempts →
      stepStops mr ws (env (load_all_reviews env mr ws).1) = true) := by
  have h := loadAux_spec env mr ws 5 0
  unfold load_all_reviews
  refine ⟨by simpa using h.2.1, ?_, ?_, h.2.2.2.2⟩
  · intro hm
    simpa using h.2.2.2.1 hm
  · intro j h1 h2
    exact h.2.2.1 j (by omega) h2

/-- Witness for C10: in an environment whose second iteration finds no
clickable button, the loop stays within the cap and its stopping iteration
triggers a stop condition. -/
theorem load_loop_bounded_witness :
    (load_all_reviews showMoreEnvW none true).1 ≤ 5 ∧
    stepStops none true
      (showMoreEnvW (load_all_reviews showMoreEnvW none true).1) = true := by
  have h := load_loop_bounded showMoreEnvW none true
  exact ⟨h.1, h.2.2.2 (by decide)⟩

end Scraper
